import Mathlib

/-!
Shallow embedding of the RIFF/WAVE decoder in `src/main.rs` (module `wave`).

Bytes are modelled as `Nat` (the Rust buffer is `Vec<u8>`, so every entry is
below 256 in any real execution).  Rust panics are modelled as `Except.error`
with an `Err` value naming the panic site, matching the error taxonomy of the
specification.  Each `while` loop of the source is translated into a
fuel-indexed structurally recursive function; the loop condition is tested
before any fuel is consumed, so a loop that performs no iteration needs no
fuel.  The top-level `parse` supplies `bytes.length + 16` fuel, enough for
every terminating execution since every loop iteration of the source consumes
at least one byte of the buffer.
-/

namespace Wave

/-- Decode failures; one constructor per panic site of the source, named after
the specification's error taxonomy.  `outOfFuel` is the embedding artifact for
loop iterations beyond the supplied fuel. -/
inductive Err where
  | outOfBounds
  | notAWaveFile
  | missingRequiredChunk
  | missingDataChunk
  | unsupportedFormat
  | unsupportedChannelCount
  | unsupportedBitDepth
  | contractViolation
  | outOfFuel
deriving DecidableEq, Repr

/-- Equality of `Except` values is decidable when both component types have
decidable equality; used to evaluate the parser on concrete inputs. -/
instance {ε α : Type} [DecidableEq ε] [DecidableEq α] : DecidableEq (Except ε α) := fun a b =>
  match a, b with
  | .error x, .error y =>
    if h : x = y then .isTrue (by rw [h]) else .isFalse (by intro hc; cases hc; exact h rfl)
  | .error _, .ok _ => .isFalse (by intro hc; cases hc)
  | .ok _, .error _ => .isFalse (by intro hc; cases hc)
  | .ok x, .ok y =>
    if h : x = y then .isTrue (by rw [h]) else .isFalse (by intro hc; cases hc; exact h rfl)

/-- `enum Sample`: 8-bit unsigned or 16-bit signed sample. -/
inductive Sample where
  | bitDepth8 (v : Nat)
  | bitDepth16 (v : Int)
deriving DecidableEq, Repr

/-- `enum WaveFormatCategory`: only linear PCM (tag value 0x0001). -/
inductive WaveFormatCategory where
  | WAVE_FORMAT_PCM
deriving DecidableEq, Repr

/-- `struct WaveFile`: the parse result. -/
structure WaveFile where
  channels : List (List Sample)
  wave_format : WaveFormatCategory
  sample_rate : Nat
  byte_rate : Nat
  block_align : Nat
  bits_per_sample : Nat
deriving DecidableEq, Repr

/-- `impl Default for WaveFile`. -/
def WaveFile.default0 : WaveFile :=
  ⟨[], .WAVE_FORMAT_PCM, 0, 0, 0, 0⟩

/-- `struct ByteStream`: the byte buffer plus the read offset. -/
structure ByteStream where
  bytes : List Nat
  offset : Nat
deriving DecidableEq, Repr

/-- `ByteStream::eof`: true iff the offset equals the buffer length. -/
def ByteStream.eof (s : ByteStream) : Bool :=
  s.offset == s.bytes.length

/-- `ByteStream::peek`: the next `count` bytes without advancing;
`bytes.get(start..end)` is `None` (panic `outOfBounds`) iff `end` exceeds the
buffer length. -/
def ByteStream.peek (s : ByteStream) (count : Nat) : Except Err (List Nat) :=
  if s.offset + count ≤ s.bytes.length then
    .ok ((s.bytes.drop s.offset).take count)
  else
    .error .outOfBounds

/-- `ByteStream::read`: `peek` then advance the offset by `count`. -/
def ByteStream.read (s : ByteStream) (count : Nat) : Except Err (List Nat × ByteStream) :=
  match s.peek count with
  | .error e => .error e
  | .ok bs => .ok (bs, ⟨s.bytes, s.offset + count⟩)

/-- `ByteStream::seek`: set the offset; panic `outOfBounds` if
`offset >= bytes.len()`. -/
def ByteStream.seek (s : ByteStream) (pos : Nat) : Except Err ByteStream :=
  if pos ≥ s.bytes.length then .error .outOfBounds else .ok ⟨s.bytes, pos⟩

/-- `to_u32`: big-endian interpretation of four bytes.  The source computes
`(l[0] << 24) | (l[1] << 16) | (l[2] << 8) | l[3]` on `u8` inputs, where the
shift-or of disjoint byte ranges is exactly this weighted sum. -/
def to_u32 (l : List Nat) : Nat :=
  l.getD 0 0 * 2 ^ 24 + l.getD 1 0 * 2 ^ 16 + l.getD 2 0 * 2 ^ 8 + l.getD 3 0

/-- `to_u16`: big-endian interpretation of two bytes; `(l[0] << 8) | l[1]` on
`u8` inputs. -/
def to_u16 (l : List Nat) : Nat :=
  l.getD 0 0 * 2 ^ 8 + l.getD 1 0

/-- `to_i16`: `to_u16(list) as i16`, the two's-complement reinterpretation of
the 16-bit value. -/
def to_i16 (l : List Nat) : Int :=
  if to_u16 l < 2 ^ 15 then (to_u16 l : Int) else (to_u16 l : Int) - 2 ^ 16

/- The 4-byte ASCII tags used by the parser. -/

/-- ASCII bytes of "RIFF". -/
def RIFF_TAG : List Nat := [82, 73, 70, 70]

/-- ASCII bytes of "WAVE". -/
def WAVE_TAG : List Nat := [87, 65, 86, 69]

/-- ASCII bytes of "fmt ". -/
def FMT_TAG : List Nat := [102, 109, 116, 32]

/-- ASCII bytes of "fact". -/
def FACT_TAG : List Nat := [102, 97, 99, 116]

/-- ASCII bytes of "cue ". -/
def CUE_TAG : List Nat := [99, 117, 101, 32]

/-- ASCII bytes of "plst". -/
def PLST_TAG : List Nat := [112, 108, 115, 116]

/-- ASCII bytes of "LIST". -/
def LIST_TAG : List Nat := [76, 73, 83, 84]

/-- ASCII bytes of "adtl". -/
def ADTL_TAG : List Nat := [97, 100, 116, 108]

/-- ASCII bytes of "labl". -/
def LABL_TAG : List Nat := [108, 97, 98, 108]

/-- ASCII bytes of "note". -/
def NOTE_TAG : List Nat := [110, 111, 116, 101]

/-- ASCII bytes of "ltxt". -/
def LTXT_TAG : List Nat := [108, 116, 120, 116]

/-- ASCII bytes of "file". -/
def FILE_TAG : List Nat := [102, 105, 108, 101]

/-- ASCII bytes of "data". -/
def DATA_TAG : List Nat := [100, 97, 116, 97]

/-- ASCII bytes of "slnt". -/
def SLNT_TAG : List Nat := [115, 108, 110, 116]

/-- The RIFF padding rule applied by the source before skipping a chunk
payload: `if size % 2 != 0 { size += 1 }`. -/
def padEven (n : Nat) : Nat :=
  if n % 2 ≠ 0 then n + 1 else n

/-- `read_chunk_size`: read four bytes, reverse them (the file is
little-endian), interpret as `u32`. -/
def read_chunk_size (s : ByteStream) : Except Err (Nat × ByteStream) :=
  match s.read 4 with
  | .error e => .error e
  | .ok (bs, s) => .ok (to_u32 bs.reverse, s)

/-- `try_read`: peek `expected.len()` bytes; on a match consume them and
return true, otherwise leave the position unchanged and return false. -/
def try_read (expected : List Nat) (s : ByteStream) : Except Err (Bool × ByteStream) :=
  match s.peek expected.length with
  | .error e => .error e
  | .ok bs =>
    if expected = bs then
      match s.read expected.length with
      | .error e => .error e
      | .ok (_, s) => .ok (true, s)
    else .ok (false, s)

/-- The `while` loop of `try_accept_chunk`: read a 4-byte tag; on a match stop
with true, otherwise skip the unrecognized chunk (size field plus payload
padded to even length) and continue while fewer than `numToRead` bytes have
been consumed and the stream is not at end-of-buffer. -/
def try_accept_chunk_loop (fuel : Nat) (chunk_id : List Nat) (numToRead numRead : Nat)
    (s : ByteStream) : Except Err (Bool × ByteStream) :=
  if numRead < numToRead ∧ s.eof = false then
    match fuel with
    | 0 => .error .outOfFuel
    | fuel + 1 =>
      match s.read 4 with
      | .error e => .error e
      | .ok (bs, s) =>
        if chunk_id = bs then .ok (true, s)
        else
          match read_chunk_size s with
          | .error e => .error e
          | .ok (size, s) =>
            match s.read (padEven size) with
            | .error e => .error e
            | .ok (_, s) =>
              try_accept_chunk_loop fuel chunk_id numToRead (numRead + 4 + 4 + padEven size) s
  else .ok (false, s)

/-- `try_accept_chunk`: contract checks, then the scan loop from the entry
offset; on no-match rewind (`seek`) to the entry offset. -/
def try_accept_chunk (fuel : Nat) (chunk_id : List Nat) (parent_chunk_end : Nat)
    (s : ByteStream) : Except Err (Bool × ByteStream) :=
  if s.bytes.length < parent_chunk_end then .error .contractViolation
  else if chunk_id.length ≠ 4 then .error .contractViolation
  else
    match try_accept_chunk_loop fuel chunk_id (parent_chunk_end - s.offset) 0 s with
    | .error e => .error e
    | .ok (true, s') => .ok (true, s')
    | .ok (false, s') =>
      match s'.seek s.offset with
      | .error e => .error e
      | .ok s'' => .ok (false, s'')

/-- The `while` loop of `try_accept_list_type`: as long as a `LIST` chunk is
found, read its size and 4-byte list type; on a type match set `found` and
continue, otherwise skip the list's padded payload and continue. -/
def try_accept_list_loop (fuel : Nat) (list_type : List Nat) (parent_chunk_end : Nat)
    (found : Bool) (s : ByteStream) : Except Err (Bool × ByteStream) :=
  match fuel with
  | 0 => .error .outOfFuel
  | fuel + 1 =>
    match try_accept_chunk fuel LIST_TAG parent_chunk_end s with
    | .error e => .error e
    | .ok (false, s') => .ok (found, s')
    | .ok (true, s') =>
      match read_chunk_size s' with
      | .error e => .error e
      | .ok (list_size, s') =>
        match s'.read 4 with
        | .error e => .error e
        | .ok (lt, s') =>
          if lt = list_type then
            try_accept_list_loop fuel list_type parent_chunk_end true s'
          else
            match s'.read (padEven list_size) with
            | .error e => .error e
            | .ok (_, s') => try_accept_list_loop fuel list_type parent_chunk_end found s'

/-- `try_accept_list_type`: contract checks, the list scan loop, then on
success rewind to `offset - (BYTES_LIST_TYPE + BYTES_CHUNK_SIZE)`, and on
failure rewind to the entry offset. -/
def try_accept_list_type (fuel : Nat) (list_type : List Nat) (parent_chunk_end : Nat)
    (s : ByteStream) : Except Err (Bool × ByteStream) :=
  if s.bytes.length < parent_chunk_end then .error .contractViolation
  else if list_type.length ≠ 4 then .error .contractViolation
  else
    match try_accept_list_loop fuel list_type parent_chunk_end false s with
    | .error e => .error e
    | .ok (found, s') =>
      if found then
        match s'.seek (s'.offset - (4 + 4)) with
        | .error e => .error e
        | .ok s'' => .ok (true, s'')
      else
        match s'.seek s.offset with
        | .error e => .error e
        | .ok s'' => .ok (false, s'')

/-- `skip_unimplemented_chunk`: read the size field and skip the payload
padded to even length. -/
def skip_unimplemented_chunk (s : ByteStream) : Except Err ByteStream :=
  match read_chunk_size s with
  | .error e => .error e
  | .ok (size, s) =>
    match s.read (padEven size) with
    | .error e => .error e
    | .ok (_, s) => .ok s

/-- `read_sample`: one unsigned byte for bit depth at most 8; two bytes,
reversed then reinterpreted as `i16`, for bit depth at most 16; panic
`unsupportedBitDepth` above 16. -/
def read_sample (bit_depth : Nat) (s : ByteStream) : Except Err (Sample × ByteStream) :=
  if bit_depth ≤ 8 then
    match s.read 1 with
    | .error e => .error e
    | .ok (bs, s) => .ok (.bitDepth8 (bs.getD 0 0), s)
  else if bit_depth ≤ 16 then
    match s.read 2 with
    | .error e => .error e
    | .ok (bs, s) => .ok (.bitDepth16 (to_i16 bs.reverse), s)
  else .error .unsupportedBitDepth

/-- The `while` loop of `read_wave_data_chunk`: until the offset reaches
`end_data`, read one sample (mono) or two interleaved samples (stereo) per
frame, appending to the per-channel sequences in lockstep; any other channel
count panics `unsupportedChannelCount`. -/
def read_wave_data_loop (fuel : Nat) (bits end_data : Nat) (channels : List (List Sample))
    (s : ByteStream) : Except Err (List (List Sample) × ByteStream) :=
  if s.offset < end_data then
    match fuel with
    | 0 => .error .outOfFuel
    | fuel + 1 =>
      if channels.length = 1 then
        match read_sample bits s with
        | .error e => .error e
        | .ok (sample, s) =>
          read_wave_data_loop fuel bits end_data
            (channels.set 0 (channels.getD 0 [] ++ [sample])) s
      else if channels.length = 2 then
        match read_sample bits s with
        | .error e => .error e
        | .ok (first_sample, s) =>
          match read_sample bits s with
          | .error e => .error e
          | .ok (second_sample, s) =>
            read_wave_data_loop fuel bits end_data
              ((channels.set 0 (channels.getD 0 [] ++ [first_sample])).set 1
                (channels.getD 1 [] ++ [second_sample])) s
      else .error .unsupportedChannelCount
  else .ok (channels, s)

/-- `read_wave_data_chunk`: read the size field, decode sample frames until
`start + size`, then consume one pad byte if the final offset is odd. -/
def read_wave_data_chunk (fuel : Nat) (wf : WaveFile) (s : ByteStream) :
    Except Err (WaveFile × ByteStream) :=
  match read_chunk_size s with
  | .error e => .error e
  | .ok (size, s) =>
    match read_wave_data_loop fuel wf.bits_per_sample (s.offset + size) wf.channels s with
    | .error e => .error e
    | .ok (channels, s) =>
      if s.offset % 2 ≠ 0 then
        match s.read 1 with
        | .error e => .error e
        | .ok (_, s) => .ok ({ wf with channels := channels }, s)
      else .ok ({ wf with channels := channels }, s)

/-- `read_fmt_chunk`: read the size field, then the six little-endian format
fields (each reversed from stream order); populate the wave file; panic
`unsupportedFormat` unless the format tag is linear PCM (1). -/
def read_fmt_chunk (wf : WaveFile) (s : ByteStream) : Except Err (WaveFile × ByteStream) :=
  match read_chunk_size s with
  | .error e => .error e
  | .ok (_, s) =>
  match s.read 2 with
  | .error e => .error e
  | .ok (b_tag, s) =>
  match s.read 2 with
  | .error e => .error e
  | .ok (b_channels, s) =>
  match s.read 4 with
  | .error e => .error e
  | .ok (b_rate, s) =>
  match s.read 4 with
  | .error e => .error e
  | .ok (b_byte_rate, s) =>
  match s.read 2 with
  | .error e => .error e
  | .ok (b_align, s) =>
  match s.read 2 with
  | .error e => .error e
  | .ok (b_bits, s) =>
    if to_u16 b_tag.reverse = 1 then
      .ok ({ channels := List.replicate (to_u16 b_channels.reverse) [],
             wave_format := .WAVE_FORMAT_PCM,
             sample_rate := to_u32 b_rate.reverse,
             byte_rate := to_u32 b_byte_rate.reverse,
             block_align := to_u16 b_align.reverse,
             bits_per_sample := to_u16 b_bits.reverse }, s)
    else .error .unsupportedFormat

/-- One optional chunk of `read_wave_riff_form` (`fact`, `cue `, `plst`): if
accepted, the corresponding reader just skips it as an opaque padded block. -/
def read_optional_chunk (fuel : Nat) (chunk_id : List Nat) (parent_chunk_end : Nat)
    (s : ByteStream) : Except Err ByteStream :=
  match try_accept_chunk fuel chunk_id parent_chunk_end s with
  | .error e => .error e
  | .ok (true, s) => skip_unimplemented_chunk s
  | .ok (false, s) => .ok s

/-- One required member of the `adtl` sub-list sequence: missing is fatal
(`missingRequiredChunk`), present is skipped as an opaque padded block. -/
def require_list_and_skip (fuel : Nat) (list_type : List Nat) (parent_chunk_end : Nat)
    (s : ByteStream) : Except Err ByteStream :=
  match try_accept_list_type fuel list_type parent_chunk_end s with
  | .error e => .error e
  | .ok (false, _) => .error .missingRequiredChunk
  | .ok (true, s) => skip_unimplemented_chunk s

/-- The `adtl` block of `read_wave_riff_form`: if an `adtl` list is accepted,
require `labl`, `note`, `ltxt`, `file` in order. -/
def read_adtl_lists (fuel : Nat) (parent_chunk_end : Nat) (s : ByteStream) :
    Except Err ByteStream :=
  match try_accept_list_type fuel ADTL_TAG parent_chunk_end s with
  | .error e => .error e
  | .ok (false, s) => .ok s
  | .ok (true, s) =>
    match require_list_and_skip fuel LABL_TAG parent_chunk_end s with
    | .error e => .error e
    | .ok s =>
      match require_list_and_skip fuel NOTE_TAG parent_chunk_end s with
      | .error e => .error e
      | .ok s =>
        match require_list_and_skip fuel LTXT_TAG parent_chunk_end s with
        | .error e => .error e
        | .ok s => require_list_and_skip fuel FILE_TAG parent_chunk_end s

/-- The body of the `wavl` list loop in `read_wave_riff_form`: `data`
dispatches to the data-chunk reader, `slnt` to the opaque skip, and any other
tag leaves the wave file and stream untouched. -/
def wavl_body (fuel : Nat) (wf : WaveFile) (s : ByteStream) :
    Except Err (WaveFile × ByteStream) :=
  match try_read DATA_TAG s with
  | .error e => .error e
  | .ok (true, s) => read_wave_data_chunk fuel wf s
  | .ok (false, s) =>
    match try_read SLNT_TAG s with
    | .error e => .error e
    | .ok (true, s) =>
      match skip_unimplemented_chunk s with
      | .error e => .error e
      | .ok s => .ok (wf, s)
    | .ok (false, s) => .ok (wf, s)

/-- The `wavl` list loop of `read_wave_riff_form`: run the body while the
offset is below the list's declared end and not at end-of-buffer. -/
def wavl_loop (fuel : Nat) (end_list : Nat) (wf : WaveFile) (s : ByteStream) :
    Except Err (WaveFile × ByteStream) :=
  if s.offset < end_list ∧ s.eof = false then
    match fuel with
    | 0 => .error .outOfFuel
    | fuel + 1 =>
      match wavl_body fuel wf s with
      | .error e => .error e
      | .ok (wf, s) => wavl_loop fuel end_list wf s
  else .ok (wf, s)

/-- ASCII bytes of "wavl". -/
def WAVL_TAG : List Nat := [119, 97, 118, 108]

/-- The data-region part of `read_wave_riff_form`: either a `LIST` of type
`wavl` (read its size and list type, then the content loop) or a flat `data`
chunk; neither present panics `missingDataChunk`. -/
def read_data_region (fuel : Nat) (parent_chunk_end : Nat) (wf : WaveFile) (s : ByteStream) :
    Except Err (WaveFile × ByteStream) :=
  match try_accept_list_type fuel WAVL_TAG parent_chunk_end s with
  | .error e => .error e
  | .ok (true, s) =>
    match read_chunk_size s with
    | .error e => .error e
    | .ok (list_size, s) =>
      let end_list_chunk := s.offset + list_size
      match s.read 4 with
      | .error e => .error e
      | .ok (_, s) => wavl_loop fuel end_list_chunk wf s
  | .ok (false, s) =>
    match try_accept_chunk fuel DATA_TAG parent_chunk_end s with
    | .error e => .error e
    | .ok (true, s) => read_wave_data_chunk fuel wf s
    | .ok (false, _) => .error .missingDataChunk

/-- `read_wave_riff_form`: the required `fmt ` chunk, the optional `fact`,
`cue `, `plst` chunks, the optional `adtl` list block, then the data region.
The bound is the full buffer length. -/
def read_wave_riff_form (fuel : Nat) (wf : WaveFile) (s : ByteStream) :
    Except Err (WaveFile × ByteStream) :=
  match try_accept_chunk fuel FMT_TAG s.bytes.length s with
  | .error e => .error e
  | .ok (false, _) => .error .missingRequiredChunk
  | .ok (true, s) =>
    match read_fmt_chunk wf s with
    | .error e => .error e
    | .ok (wf, s) =>
      match read_optional_chunk fuel FACT_TAG s.bytes.length s with
      | .error e => .error e
      | .ok s =>
        match read_optional_chunk fuel CUE_TAG s.bytes.length s with
        | .error e => .error e
        | .ok s =>
          match read_optional_chunk fuel PLST_TAG s.bytes.length s with
          | .error e => .error e
          | .ok s =>
            match read_adtl_lists fuel s.bytes.length s with
            | .error e => .error e
            | .ok s => read_data_region fuel s.bytes.length wf s

/-- `WaveFileParser::parse` with explicit fuel: the `RIFF` marker, the RIFF
chunk size (read and discarded), the `WAVE` marker, then the RIFF form. -/
def parseFuel (fuel : Nat) (bytes : List Nat) : Except Err WaveFile :=
  match try_read RIFF_TAG ⟨bytes, 0⟩ with
  | .error e => .error e
  | .ok (false, _) => .error .notAWaveFile
  | .ok (true, s) =>
    match read_chunk_size s with
    | .error e => .error e
    | .ok (_, s) =>
      match try_read WAVE_TAG s with
      | .error e => .error e
      | .ok (false, _) => .error .notAWaveFile
      | .ok (true, s) =>
        match read_wave_riff_form fuel WaveFile.default0 s with
        | .error e => .error e
        | .ok (wf, _) => .ok wf

/-- `WaveFileParser::parse`: canonical fuel, enough for every terminating
execution (every loop iteration consumes at least one byte). -/
def parse (bytes : List Nat) : Except Err WaveFile :=
  parseFuel (bytes.length + 16) bytes

/-! ## Basic inversion lemmas about the cursor operations -/

theorem seek_ok {s s' : ByteStream} {pos : Nat} (h : s.seek pos = .ok s') :
    s' = ⟨s.bytes, pos⟩ ∧ pos < s.bytes.length := by
  by_cases hp : pos ≥ s.bytes.length
  · simp [ByteStream.seek, hp] at h
  · simp [ByteStream.seek, hp] at h
    exact ⟨h.symm, by omega⟩

theorem read_ok {s s' : ByteStream} {n : Nat} {bs : List Nat} (h : s.read n = .ok (bs, s')) :
    bs = (s.bytes.drop s.offset).take n ∧ s' = ⟨s.bytes, s.offset + n⟩ ∧
      s.offset + n ≤ s.bytes.length := by
  by_cases hp : s.offset + n ≤ s.bytes.length
  · simp [ByteStream.read, ByteStream.peek, hp] at h
    exact ⟨h.1.symm, h.2.symm, hp⟩
  · simp [ByteStream.read, ByteStream.peek, hp] at h

theorem read_chunk_size_ok {s s' : ByteStream} {sz : Nat}
    (h : read_chunk_size s = .ok (sz, s')) :
    s' = ⟨s.bytes, s.offset + 4⟩ ∧ s.offset + 4 ≤ s.bytes.length := by
  unfold read_chunk_size at h
  split at h
  · cases h
  · next bs s₁ heq =>
    rcases read_ok heq with ⟨_, h2, h3⟩
    cases h
    exact ⟨h2, h3⟩

theorem skip_unimplemented_chunk_ok {s s' : ByteStream}
    (h : skip_unimplemented_chunk s = .ok s') :
    s'.bytes = s.bytes ∧ s.offset + 4 ≤ s'.offset := by
  unfold skip_unimplemented_chunk at h
  split at h
  · cases h
  · next sz s₁ heq =>
    rcases read_chunk_size_ok heq with ⟨h1, _⟩
    split at h
    · cases h
    · next bs s₂ heq₂ =>
      rcases read_ok heq₂ with ⟨_, h2, _⟩
      cases h
      subst h1
      simp [h2]

theorem read_sample_ok {bits : Nat} {s s' : ByteStream} {x : Sample}
    (h : read_sample bits s = .ok (x, s')) :
    s'.bytes = s.bytes ∧ s.offset + 1 ≤ s'.offset ∧ s'.offset ≤ s.offset + 2 := by
  unfold read_sample at h
  split at h
  · split at h
    · cases h
    · next bs s₁ heq =>
      rcases read_ok heq with ⟨_, h2, _⟩
      cases h
      subst h2
      simp
  · split at h
    · split at h
      · cases h
      · next bs s₁ heq =>
        rcases read_ok heq with ⟨_, h2, _⟩
        cases h
        subst h2
        simp
    · cases h

/-! ## Unfolding equations for the fueled loops -/

theorem try_accept_chunk_loop_zero (cid : List Nat) (a b : Nat) (s : ByteStream) :
    try_accept_chunk_loop 0 cid a b s =
      if b < a ∧ s.eof = false then .error .outOfFuel else .ok (false, s) := rfl

theorem try_accept_chunk_loop_succ (n : Nat) (cid : List Nat) (a b : Nat) (s : ByteStream) :
    try_accept_chunk_loop (n + 1) cid a b s =
      if b < a ∧ s.eof = false then
        match s.read 4 with
        | .error e => .error e
        | .ok (bs, s) =>
          if cid = bs then .ok (true, s)
          else
            match read_chunk_size s with
            | .error e => .error e
            | .ok (size, s) =>
              match s.read (padEven size) with
              | .error e => .error e
              | .ok (_, s) =>
                try_accept_chunk_loop n cid a (b + 4 + 4 + padEven size) s
      else .ok (false, s) := rfl

theorem read_wave_data_loop_zero (bits e : Nat) (ch : List (List Sample)) (s : ByteStream) :
    read_wave_data_loop 0 bits e ch s =
      if s.offset < e then .error .outOfFuel else .ok (ch, s) := rfl

theorem read_wave_data_loop_succ (n bits e : Nat) (ch : List (List Sample)) (s : ByteStream) :
    read_wave_data_loop (n + 1) bits e ch s =
      if s.offset < e then
        if ch.length = 1 then
          match read_sample bits s with
          | .error e => .error e
          | .ok (sample, s) =>
            read_wave_data_loop n bits e (ch.set 0 (ch.getD 0 [] ++ [sample])) s
        else if ch.length = 2 then
          match read_sample bits s with
          | .error e => .error e
          | .ok (first_sample, s) =>
            match read_sample bits s with
            | .error e => .error e
            | .ok (second_sample, s) =>
              read_wave_data_loop n bits e
                ((ch.set 0 (ch.getD 0 [] ++ [first_sample])).set 1
                  (ch.getD 1 [] ++ [second_sample])) s
        else .error .unsupportedChannelCount
      else .ok (ch, s) := rfl

theorem wavl_loop_zero (e : Nat) (wf : WaveFile) (s : ByteStream) :
    wavl_loop 0 e wf s =
      if s.offset < e ∧ s.eof = false then .error .outOfFuel else .ok (wf, s) := rfl

theorem wavl_loop_succ (n e : Nat) (wf : WaveFile) (s : ByteStream) :
    wavl_loop (n + 1) e wf s =
      if s.offset < e ∧ s.eof = false then
        match wavl_body n wf s with
        | .error e => .error e
        | .ok (wf, s) => wavl_loop n e wf s
      else .ok (wf, s) := rfl

/-! ## Lemmas about the chunk-matcher scan loop -/

theorem try_accept_chunk_loop_bytes {fuel : Nat} {cid : List Nat} {a b : Nat}
    {s s' : ByteStream} {t : Bool}
    (h : try_accept_chunk_loop fuel cid a b s = .ok (t, s')) : s'.bytes = s.bytes := by
  induction fuel generalizing b s with
  | zero =>
    rw [try_accept_chunk_loop_zero] at h
    split at h
    · cases h
    · cases h; rfl
  | succ n ih =>
    rw [try_accept_chunk_loop_succ] at h
    split at h
    · split at h
      · cases h
      · next bs s₁ heq =>
        rcases read_ok heq with ⟨_, hs₁, _⟩
        split at h
        · cases h
          rcases hs₁ with rfl
          rfl
        · split at h
          · cases h
          · next sz s₂ heq₂ =>
            rcases read_chunk_size_ok heq₂ with ⟨hs₂, _⟩
            split at h
            · cases h
            · next bs₃ s₃ heq₃ =>
              rcases read_ok heq₃ with ⟨_, hs₃, _⟩
              have := ih h
              rcases hs₁ with rfl
              rcases hs₂ with rfl
              rcases hs₃ with rfl
              exact this
    · cases h; rfl

/-- The rewind law of `try_accept_chunk`: a reported no-match restores the
cursor to the entry offset (and the buffer is unchanged). -/
theorem try_accept_chunk_ok_false {fuel : Nat} {cid : List Nat} {pend : Nat}
    {s s' : ByteStream}
    (h : try_accept_chunk fuel cid pend s = .ok (false, s')) : s' = ⟨s.bytes, s.offset⟩ := by
  unfold try_accept_chunk at h
  split at h
  · cases h
  · split at h
    · cases h
    · split at h
      · cases h
      · next s₁ heq => cases h
      · next s₁ heq =>
        have hb := try_accept_chunk_loop_bytes heq
        split at h
        · cases h
        · next s₂ heq₂ =>
          rcases seek_ok heq₂ with ⟨rfl, _⟩
          cases h
          rw [hb]

theorem read_wave_data_loop_mono {fuel bits e : Nat} {ch ch' : List (List Sample)}
    {s s' : ByteStream}
    (h : read_wave_data_loop fuel bits e ch s = .ok (ch', s')) :
    s'.bytes = s.bytes ∧ s.offset ≤ s'.offset := by
  induction fuel generalizing ch s with
  | zero =>
    rw [read_wave_data_loop_zero] at h
    split at h
    · cases h
    · cases h; exact ⟨rfl, le_refl _⟩
  | succ n ih =>
    rw [read_wave_data_loop_succ] at h
    split at h
    · split at h
      · split at h
        · cases h
        · next x s₁ heq =>
          rcases read_sample_ok heq with ⟨hb, h1, _⟩
          rcases ih h with ⟨hb', h2⟩
          exact ⟨hb'.trans hb, by omega⟩
      · split at h
        · split at h
          · cases h
          · next x s₁ heq =>
            rcases read_sample_ok heq with ⟨hb, h1, _⟩
            split at h
            · cases h
            · next y s₂ heq₂ =>
              rcases read_sample_ok heq₂ with ⟨hb₂, h2, _⟩
              rcases ih h with ⟨hb', h3⟩
              exact ⟨(hb'.trans hb₂).trans hb, by omega⟩
        · cases h
    · cases h; exact ⟨rfl, le_refl _⟩

/-- `read_wave_data_chunk` always advances the cursor by at least the four
size bytes. -/
theorem read_wave_data_chunk_advances {fuel : Nat} {wf wf' : WaveFile} {s s' : ByteStream}
    (h : read_wave_data_chunk fuel wf s = .ok (wf', s')) :
    s'.bytes = s.bytes ∧ s.offset + 4 ≤ s'.offset := by
  unfold read_wave_data_chunk at h
  split at h
  · cases h
  · next sz s₁ heq =>
    rcases read_chunk_size_ok heq with ⟨hs₁, _⟩
    split at h
    · cases h
    · next ch s₂ heq₂ =>
      rcases read_wave_data_loop_mono heq₂ with ⟨hb₂, h2⟩
      split at h
      · split at h
        · cases h
        · next bs s₃ heq₃ =>
          rcases read_ok heq₃ with ⟨_, hs₃, _⟩
          cases h
          rcases hs₁ with rfl
          rcases hs₃ with rfl
          refine ⟨by simp [hb₂], ?_⟩
          simp at h2 ⊢
          omega
      · cases h
        rcases hs₁ with rfl
        refine ⟨by simp [hb₂], ?_⟩
        simp at h2
        omega

/-! ## Concrete input buffers used by the claims -/

/-- Scenario A's buffer exactly as the claim states it: `RIFF`, size, `WAVE`,
an `fmt ` chunk of size 16 (PCM tag 1, 1 channel, rate 8000, byte rate 8000,
block align 1, 8 bits), then a `data` chunk of declared size 3 with payload
`[1, 2, 3]` and nothing after it (47 bytes, no pad byte). -/
def scenarioA_noPad : List Nat :=
  [82, 73, 70, 70, 39, 0, 0, 0, 87, 65, 86, 69,
   102, 109, 116, 32, 16, 0, 0, 0, 1, 0, 1, 0, 64, 31, 0, 0, 64, 31, 0, 0, 1, 0, 8, 0,
   100, 97, 116, 97, 3, 0, 0, 0, 1, 2, 3]

/-- Scenario A's buffer with the RIFF pad byte appended after the odd-sized
`data` payload (48 bytes). -/
def scenarioA_padded : List Nat :=
  [82, 73, 70, 70, 40, 0, 0, 0, 87, 65, 86, 69,
   102, 109, 116, 32, 16, 0, 0, 0, 1, 0, 1, 0, 64, 31, 0, 0, 64, 31, 0, 0, 1, 0, 8, 0,
   100, 97, 116, 97, 3, 0, 0, 0, 1, 2, 3, 0]

/-- Scenario B's buffer: as Scenario A but 2 channels and a `data` chunk of
declared size 4 with payload `[1, 2, 3, 4]` (48 bytes, even size, no pad). -/
def scenarioB : List Nat :=
  [82, 73, 70, 70, 40, 0, 0, 0, 87, 65, 86, 69,
   102, 109, 116, 32, 16, 0, 0, 0, 1, 0, 2, 0, 64, 31, 0, 0, 64, 31, 0, 0, 1, 0, 8, 0,
   100, 97, 116, 97, 4, 0, 0, 0, 1, 2, 3, 4]

/-- A buffer whose first chunk is a `LIST` of sub-type `wavl` (declared size
4), followed by an unrelated `junk` chunk of size 0. -/
def c3_buffer : List Nat :=
  [76, 73, 83, 84, 4, 0, 0, 0, 119, 97, 118, 108, 106, 117, 110, 107, 0, 0, 0, 0]

/-- A stream positioned at a `junk` chunk, as reached inside a `wavl` list
whose content is neither a `data` nor a `slnt` chunk. -/
def c1_stall_stream : ByteStream :=
  ⟨[106, 117, 110, 107, 0, 0, 0, 0], 0⟩

/-! ## Claim theorems -/

/-- Claim C9: `seek(pos)` sets the offset to `pos` exactly when
`pos < buffer.length`, fails with `OutOfBounds` exactly when
`pos >= buffer.length`, and `eof()` is true iff the offset equals the buffer
length. -/
theorem c9_seek_eof (s : ByteStream) (pos : Nat) :
    (s.seek pos = .ok ⟨s.bytes, pos⟩ ↔ pos < s.bytes.length) ∧
    (s.seek pos = .error .outOfBounds ↔ s.bytes.length ≤ pos) ∧
    (s.eof = true ↔ s.offset = s.bytes.length) := by
  unfold ByteStream.seek ByteStream.eof
  refine ⟨?_, ?_, by simp⟩
  · split
    · next hp => simp; omega
    · next hp => simp; omega
  · split
    · next hp => simp; omega
    · next hp => simp; omega

/-- Claim C4 counterexample: the exact Scenario A buffer of the claim (odd
`data` payload, nothing after it) does not parse successfully; the scan for
the optional `fact` chunk skips the padded `data` payload across the end of
the buffer and the parse aborts with `OutOfBounds`. -/
theorem c4_counterexample : parse scenarioA_noPad = .error .outOfBounds := by decide

/-- Claim C4 (amended): with the RIFF pad byte present after the odd-sized
`data` payload, Scenario A parses successfully into one channel holding the
unsigned 8-bit samples `[1, 2, 3]`, sample rate 8000, byte rate 8000, block
align 1, bits per sample 8. -/
theorem c4_scenarioA_padded :
    parse scenarioA_padded =
      .ok ⟨[[.bitDepth8 1, .bitDepth8 2, .bitDepth8 3]],
           .WAVE_FORMAT_PCM, 8000, 8000, 1, 8⟩ := by
  have e0 : try_read RIFF_TAG ⟨scenarioA_padded, 0⟩ = .ok (true, ⟨scenarioA_padded, 4⟩) := by decide
  have e1 : read_chunk_size ⟨scenarioA_padded, 4⟩ = .ok (40, ⟨scenarioA_padded, 8⟩) := by decide
  have e2 : try_read WAVE_TAG ⟨scenarioA_padded, 8⟩ = .ok (true, ⟨scenarioA_padded, 12⟩) := by decide
  have hl : scenarioA_padded.length = 48 := by decide
  have ea : try_accept_chunk 64 FMT_TAG 48 ⟨scenarioA_padded, 12⟩ =
      .ok (true, ⟨scenarioA_padded, 16⟩) := by decide
  have eb : read_fmt_chunk WaveFile.default0 ⟨scenarioA_padded, 16⟩ =
      .ok (⟨[[]], .WAVE_FORMAT_PCM, 8000, 8000, 1, 8⟩, ⟨scenarioA_padded, 36⟩) := by decide
  have ec : read_optional_chunk 64 FACT_TAG 48 ⟨scenarioA_padded, 36⟩ =
      .ok ⟨scenarioA_padded, 36⟩ := by decide
  have ed : read_optional_chunk 64 CUE_TAG 48 ⟨scenarioA_padded, 36⟩ =
      .ok ⟨scenarioA_padded, 36⟩ := by decide
  have ee : read_optional_chunk 64 PLST_TAG 48 ⟨scenarioA_padded, 36⟩ =
      .ok ⟨scenarioA_padded, 36⟩ := by decide
  have ef : read_adtl_lists 64 48 ⟨scenarioA_padded, 36⟩ = .ok ⟨scenarioA_padded, 36⟩ := by decide
  have eg : read_data_region 64 48 ⟨[[]], .WAVE_FORMAT_PCM, 8000, 8000, 1, 8⟩
        ⟨scenarioA_padded, 36⟩ =
      .ok (⟨[[.bitDepth8 1, .bitDepth8 2, .bitDepth8 3]], .WAVE_FORMAT_PCM, 8000, 8000, 1, 8⟩,
           ⟨scenarioA_padded, 48⟩) := by decide
  show parseFuel 64 scenarioA_padded = _
  unfold parseFuel
  simp only [e0, e1, e2]
  unfold read_wave_riff_form
  simp only [hl, ea, eb, ec, ed, ee, ef, eg]

/-- Claim C6: Scenario B (2 channels, `data` payload `[1, 2, 3, 4]`) parses
successfully with channel 0 = `[1, 3]` and channel 1 = `[2, 4]`: the first
sample of each interleaved frame goes to channel 0 and the second to
channel 1. -/
theorem c6_scenarioB :
    parse scenarioB =
      .ok ⟨[[.bitDepth8 1, .bitDepth8 3], [.bitDepth8 2, .bitDepth8 4]],
           .WAVE_FORMAT_PCM, 8000, 8000, 1, 8⟩ := by
  have e0 : try_read RIFF_TAG ⟨scenarioB, 0⟩ = .ok (true, ⟨scenarioB, 4⟩) := by decide
  have e1 : read_chunk_size ⟨scenarioB, 4⟩ = .ok (40, ⟨scenarioB, 8⟩) := by decide
  have e2 : try_read WAVE_TAG ⟨scenarioB, 8⟩ = .ok (true, ⟨scenarioB, 12⟩) := by decide
  have hl : scenarioB.length = 48 := by decide
  have ea : try_accept_chunk 64 FMT_TAG 48 ⟨scenarioB, 12⟩ =
      .ok (true, ⟨scenarioB, 16⟩) := by decide
  have eb : read_fmt_chunk WaveFile.default0 ⟨scenarioB, 16⟩ =
      .ok (⟨[[], []], .WAVE_FORMAT_PCM, 8000, 8000, 1, 8⟩, ⟨scenarioB, 36⟩) := by decide
  have ec : read_optional_chunk 64 FACT_TAG 48 ⟨scenarioB, 36⟩ =
      .ok ⟨scenarioB, 36⟩ := by decide
  have ed : read_optional_chunk 64 CUE_TAG 48 ⟨scenarioB, 36⟩ =
      .ok ⟨scenarioB, 36⟩ := by decide
  have ee : read_optional_chunk 64 PLST_TAG 48 ⟨scenarioB, 36⟩ =
      .ok ⟨scenarioB, 36⟩ := by decide
  have ef : read_adtl_lists 64 48 ⟨scenarioB, 36⟩ = .ok ⟨scenarioB, 36⟩ := by decide
  have eg : read_data_region 64 48 ⟨[[], []], .WAVE_FORMAT_PCM, 8000, 8000, 1, 8⟩
        ⟨scenarioB, 36⟩ =
      .ok (⟨[[.bitDepth8 1, .bitDepth8 3], [.bitDepth8 2, .bitDepth8 4]],
            .WAVE_FORMAT_PCM, 8000, 8000, 1, 8⟩,
           ⟨scenarioB, 48⟩) := by decide
  show parseFuel 64 scenarioB = _
  unfold parseFuel
  simp only [e0, e1, e2]
  unfold read_wave_riff_form
  simp only [hl, ea, eb, ec, ed, ee, ef, eg]

/-- Claim C7 counterexample: for the 16-bit branch, the file-order pair
`[1, 0]` decodes to the signed value 1 (second byte is the most-significant
byte), not to `1 * 256 + 0 = 256` as the claim's reading of `[hi, lo]` with
`hi` as most-significant byte would require. -/
theorem c7_counterexample :
    read_sample 16 ⟨[1, 0], 0⟩ = .ok (.bitDepth16 1, ⟨[1, 0], 2⟩) ∧
      Sample.bitDepth16 1 ≠ Sample.bitDepth16 (1 * 2 ^ 8 + 0) := by decide

/-- Claim C2 counterexample: at an entry offset equal to the buffer length
(with the bound equal to the buffer length), `try_accept_chunk` does not
report no-match with the cursor restored: the rewind `seek` aborts with
`OutOfBounds`. -/
theorem c2_counterexample :
    try_accept_chunk 8 DATA_TAG 2 ⟨[1, 2], 2⟩ = .error .outOfBounds := by decide

/-- Claim C3 counterexample: on `c3_buffer` the list matcher succeeds for
sub-type `wavl` with the cursor at offset 4 — the start of the size field —
where the next 4 bytes are `[4, 0, 0, 0]`, not the ASCII bytes `LIST`. -/
theorem c3_counterexample :
    try_accept_list_type 8 WAVL_TAG 20 ⟨c3_buffer, 0⟩ = .ok (true, ⟨c3_buffer, 4⟩) ∧
      (⟨c3_buffer, 4⟩ : ByteStream).peek 4 ≠ .ok LIST_TAG := by decide

/-- Claim C1 counterexample: a `wavl`-list content state whose next 4-byte
tag is neither `data` nor `slnt`: the loop condition holds (offset below the
list end, not end-of-buffer) yet one loop body leaves the wave file and the
stream completely unchanged, so the scan loop does not advance — iterating
it exhausts any amount of fuel. -/
theorem c1_counterexample :
    (c1_stall_stream.offset < 8 ∧ c1_stall_stream.eof = false) ∧
    wavl_body 64 WaveFile.default0 c1_stall_stream = .ok (WaveFile.default0, c1_stall_stream) ∧
    wavl_loop 50 8 WaveFile.default0 c1_stall_stream = .error .outOfFuel := by decide

/-! ## Evaluation lemmas for symbolic streams -/

theorem try_accept_list_loop_zero (lt : List Nat) (pend : Nat) (found : Bool)
    (s : ByteStream) :
    try_accept_list_loop 0 lt pend found s = .error .outOfFuel := rfl

theorem try_accept_list_loop_succ (n : Nat) (lt : List Nat) (pend : Nat) (found : Bool)
    (s : ByteStream) :
    try_accept_list_loop (n + 1) lt pend found s =
      match try_accept_chunk n LIST_TAG pend s with
      | .error e => .error e
      | .ok (false, s') => .ok (found, s')
      | .ok (true, s') =>
        match read_chunk_size s' with
        | .error e => .error e
        | .ok (list_size, s') =>
          match s'.read 4 with
          | .error e => .error e
          | .ok (l, s') =>
            if l = lt then try_accept_list_loop n lt pend true s'
            else
              match s'.read (padEven list_size) with
              | .error e => .error e
              | .ok (_, s') => try_accept_list_loop n lt pend found s' := rfl

theorem read_eq_ok {s : ByteStream} {n : Nat} (h : s.offset + n ≤ s.bytes.length) :
    s.read n = .ok ((s.bytes.drop s.offset).take n, ⟨s.bytes, s.offset + n⟩) := by
  unfold ByteStream.read ByteStream.peek
  rw [if_pos h]

theorem read_eq_err {s : ByteStream} {n : Nat} (h : s.bytes.length < s.offset + n) :
    s.read n = .error .outOfBounds := by
  unfold ByteStream.read ByteStream.peek
  rw [if_neg (by omega)]

theorem read_chunk_size_eq {s : ByteStream} (h : s.offset + 4 ≤ s.bytes.length) :
    read_chunk_size s =
      .ok (to_u32 ((s.bytes.drop s.offset).take 4).reverse, ⟨s.bytes, s.offset + 4⟩) := by
  unfold read_chunk_size
  rw [read_eq_ok h]

theorem eof_false {s : ByteStream} (h : s.offset ≠ s.bytes.length) : s.eof = false := by
  simp [ByteStream.eof, h]

theorem try_read_match {expected : List Nat} {s : ByteStream}
    (h : s.offset + expected.length ≤ s.bytes.length)
    (hm : (s.bytes.drop s.offset).take expected.length = expected) :
    try_read expected s = .ok (true, ⟨s.bytes, s.offset + expected.length⟩) := by
  have hp : s.peek expected.length = .ok ((s.bytes.drop s.offset).take expected.length) := by
    unfold ByteStream.peek
    rw [if_pos h]
  unfold try_read
  simp only [hp]
  rw [if_pos hm.symm]
  simp only [read_eq_ok h]

theorem try_read_mismatch {expected : List Nat} {s : ByteStream}
    (h : s.offset + expected.length ≤ s.bytes.length)
    (hm : (s.bytes.drop s.offset).take expected.length ≠ expected) :
    try_read expected s = .ok (false, s) := by
  have hp : s.peek expected.length = .ok ((s.bytes.drop s.offset).take expected.length) := by
    unfold ByteStream.peek
    rw [if_pos h]
  unfold try_read
  simp only [hp]
  rw [if_neg (fun hh => hm hh.symm)]

/-- Claim C2 (amended): whenever `try_accept_chunk` reports no-match, the
cursor offset after the call equals the offset before the call (for every
tag, bound, fuel and entry state); however, at an entry offset equal to the
buffer length (the bound being the buffer length, as at every call site), a
no-match is never reported: the rewind `seek` aborts the parse with
`OutOfBounds` instead. -/
theorem c2_rewind_law (fuel : Nat) (tag : List Nat) (pend : Nat) (s s' : ByteStream) :
    (try_accept_chunk fuel tag pend s = .ok (false, s') → s'.offset = s.offset) ∧
    (s.offset = s.bytes.length → pend = s.bytes.length → tag.length = 4 →
      try_accept_chunk fuel tag pend s = .error .outOfBounds) := by
  constructor
  · intro h
    rw [try_accept_chunk_ok_false h]
  · intro h1 h2 h3
    unfold try_accept_chunk
    rw [if_neg (by omega), if_neg (by simp [h3])]
    have hz : pend - s.offset = 0 := by omega
    rw [hz]
    have hloop : try_accept_chunk_loop fuel tag 0 0 s = .ok (false, s) := by
      cases fuel
      · rw [try_accept_chunk_loop_zero]
        simp
      · rw [try_accept_chunk_loop_succ]
        simp
    simp only [hloop]
    have hseek : ByteStream.seek s s.offset = .error .outOfBounds := by
      unfold ByteStream.seek
      rw [if_pos (by omega)]
    simp only [hseek]

/-- Claim C2 witness: the rewind law at a state where a `junk` chunk is
scanned without finding `data` (offsets equal), and the abort at an entry
offset equal to the buffer length. -/
theorem c2_rewind_law_witness :
    (⟨[106, 117, 110, 107, 0, 0, 0, 0], 0⟩ : ByteStream).offset =
      (⟨[106, 117, 110, 107, 0, 0, 0, 0], 0⟩ : ByteStream).offset ∧
    try_accept_chunk 8 DATA_TAG 3 ⟨[5, 6, 7], 3⟩ = .error .outOfBounds :=
  ⟨(c2_rewind_law 8 DATA_TAG 8 ⟨[106, 117, 110, 107, 0, 0, 0, 0], 0⟩
      ⟨[106, 117, 110, 107, 0, 0, 0, 0], 0⟩).1 (by decide),
   (c2_rewind_law 8 DATA_TAG 3 ⟨[5, 6, 7], 3⟩ ⟨[5, 6, 7], 3⟩).2
      (by decide) (by decide) (by decide)⟩

/-- Claim C10: during a chunk-matcher scan, a position before the bound with
fewer than 4 bytes remaining in the buffer, or an unrecognized chunk whose
padded declared size exceeds the remaining bytes, does not yield a rewound
no-match: the tag read (resp. the payload-skip read) crosses the buffer
boundary and the call aborts with `OutOfBounds`. -/
theorem c10_scan_out_of_bounds (fuel : Nat) (tag : List Nat) (pend : Nat) (s : ByteStream)
    (h4 : tag.length = 4) (hp : pend ≤ s.bytes.length) (hf : 0 < fuel) :
    (s.offset < pend → s.bytes.length < s.offset + 4 →
      try_accept_chunk fuel tag pend s = .error .outOfBounds) ∧
    (s.offset < pend → s.offset + 8 ≤ s.bytes.length →
      (s.bytes.drop s.offset).take 4 ≠ tag →
      s.bytes.length <
        s.offset + 8 + padEven (to_u32 ((s.bytes.drop (s.offset + 4)).take 4).reverse) →
      try_accept_chunk fuel tag pend s = .error .outOfBounds) := by
  obtain ⟨n, rfl⟩ : ∃ n, fuel = n + 1 := ⟨fuel - 1, by omega⟩
  have hwrap : ∀ r, try_accept_chunk_loop (n + 1) tag (pend - s.offset) 0 s = .error r →
      try_accept_chunk (n + 1) tag pend s = .error r := by
    intro r hr
    unfold try_accept_chunk
    rw [if_neg (by omega), if_neg (by simp [h4]), hr]
  constructor
  · intro hlt hrem
    apply hwrap
    rw [try_accept_chunk_loop_succ, if_pos ⟨by omega, eof_false (by omega)⟩]
    simp only [read_eq_err hrem]
  · intro hlt hrem hne hbig
    apply hwrap
    rw [try_accept_chunk_loop_succ, if_pos ⟨by omega, eof_false (by omega)⟩]
    simp only [read_eq_ok (show s.offset + 4 ≤ s.bytes.length by omega)]
    rw [if_neg (fun hh => hne hh.symm)]
    have hcs : read_chunk_size ⟨s.bytes, s.offset + 4⟩ =
        .ok (to_u32 ((s.bytes.drop (s.offset + 4)).take 4).reverse,
          ⟨s.bytes, s.offset + 4 + 4⟩) := read_chunk_size_eq (by simp; omega)
    simp only [hcs]
    have herr : (⟨s.bytes, s.offset + 4 + 4⟩ : ByteStream).read
        (padEven (to_u32 ((s.bytes.drop (s.offset + 4)).take 4).reverse)) =
        .error .outOfBounds := read_eq_err (by simp; omega)
    simp only [herr]

/-- Claim C10 witness: a position with 2 bytes remaining (tag read crosses
the boundary), and a `junk` chunk declaring size 9 (padded 10) with no
payload bytes behind it (skip read crosses the boundary). -/
theorem c10_scan_out_of_bounds_witness :
    try_accept_chunk 8 DATA_TAG 2 ⟨[1, 2], 0⟩ = .error .outOfBounds ∧
    try_accept_chunk 8 DATA_TAG 8 ⟨[106, 117, 110, 107, 9, 0, 0, 0], 0⟩ =
      .error .outOfBounds :=
  ⟨(c10_scan_out_of_bounds 8 DATA_TAG 2 ⟨[1, 2], 0⟩ (by decide) (by decide) (by decide)).1
      (by decide) (by decide),
   (c10_scan_out_of_bounds 8 DATA_TAG 8 ⟨[106, 117, 110, 107, 9, 0, 0, 0], 0⟩
      (by decide) (by decide) (by decide)).2
      (by decide) (by decide) (by decide) (by decide)⟩

/-- Claim C8: when the 20 bytes of the `fmt ` chunk body (size field plus six
format fields) are within the buffer, the format-chunk decoder fails with
`UnsupportedFormat` if and only if the little-endian 16-bit format tag read
from the chunk is not the linear-PCM value 1; no decoded-audio value is
returned in that case (the error carries none). -/
theorem c8_unsupported_format_iff (wf : WaveFile) (s : ByteStream)
    (h : s.offset + 20 ≤ s.bytes.length) :
    (read_fmt_chunk wf s = .error .unsupportedFormat ↔
      to_u16 ((s.bytes.drop (s.offset + 4)).take 2).reverse ≠ 1) := by
  have r0 : read_chunk_size s =
      .ok (to_u32 ((s.bytes.drop s.offset).take 4).reverse, ⟨s.bytes, s.offset + 4⟩) :=
    read_chunk_size_eq (by omega)
  have r1 : (⟨s.bytes, s.offset + 4⟩ : ByteStream).read 2 =
      .ok ((s.bytes.drop (s.offset + 4)).take 2, ⟨s.bytes, s.offset + 4 + 2⟩) :=
    read_eq_ok (by simp; omega)
  have r2 : (⟨s.bytes, s.offset + 4 + 2⟩ : ByteStream).read 2 =
      .ok ((s.bytes.drop (s.offset + 4 + 2)).take 2, ⟨s.bytes, s.offset + 4 + 2 + 2⟩) :=
    read_eq_ok (by simp; omega)
  have r3 : (⟨s.bytes, s.offset + 4 + 2 + 2⟩ : ByteStream).read 4 =
      .ok ((s.bytes.drop (s.offset + 4 + 2 + 2)).take 4, ⟨s.bytes, s.offset + 4 + 2 + 2 + 4⟩) :=
    read_eq_ok (by simp; omega)
  have r4 : (⟨s.bytes, s.offset + 4 + 2 + 2 + 4⟩ : ByteStream).read 4 =
      .ok ((s.bytes.drop (s.offset + 4 + 2 + 2 + 4)).take 4,
        ⟨s.bytes, s.offset + 4 + 2 + 2 + 4 + 4⟩) :=
    read_eq_ok (by simp; omega)
  have r5 : (⟨s.bytes, s.offset + 4 + 2 + 2 + 4 + 4⟩ : ByteStream).read 2 =
      .ok ((s.bytes.drop (s.offset + 4 + 2 + 2 + 4 + 4)).take 2,
        ⟨s.bytes, s.offset + 4 + 2 + 2 + 4 + 4 + 2⟩) :=
    read_eq_ok (by simp; omega)
  have r6 : (⟨s.bytes, s.offset + 4 + 2 + 2 + 4 + 4 + 2⟩ : ByteStream).read 2 =
      .ok ((s.bytes.drop (s.offset + 4 + 2 + 2 + 4 + 4 + 2)).take 2,
        ⟨s.bytes, s.offset + 4 + 2 + 2 + 4 + 4 + 2 + 2⟩) :=
    read_eq_ok (by simp; omega)
  unfold read_fmt_chunk
  simp only [r0, r1, r2, r3, r4, r5, r6]
  split
  · next htag => simp [htag]
  · next htag => simp [htag]

/-- Claim C8 witness: a `fmt ` chunk body declaring format tag 0x0002 fails
with `UnsupportedFormat`. -/
theorem c8_unsupported_format_iff_witness :
    read_fmt_chunk WaveFile.default0
      ⟨[16, 0, 0, 0, 2, 0, 1, 0, 64, 31, 0, 0, 64, 31, 0, 0, 1, 0, 8, 0], 0⟩ =
      .error .unsupportedFormat :=
  (c8_unsupported_format_iff WaveFile.default0
    ⟨[16, 0, 0, 0, 2, 0, 1, 0, 64, 31, 0, 0, 64, 31, 0, 0, 1, 0, 8, 0], 0⟩
    (by decide)).mpr (by decide)

/-- Claim C7 (amended): with the next two buffer bytes being `b0` then `b1`
(file order), a declared bit depth of at most 8 consumes one byte and yields
the unsigned 8-bit value `b0`; a depth above 8 and at most 16 consumes both
bytes, reverses them, and yields the signed 16-bit two's-complement value
whose most-significant byte is `b1` — the second byte in file order
(little-endian), i.e. `b1 * 256 + b0` reinterpreted; a depth above 16 fails
with `UnsupportedBitDepth`. -/
theorem c7_sample_decode (bits b0 b1 : Nat) (pre post : List Nat) :
    (bits ≤ 8 →
      read_sample bits ⟨pre ++ b0 :: b1 :: post, pre.length⟩ =
        .ok (.bitDepth8 b0, ⟨pre ++ b0 :: b1 :: post, pre.length + 1⟩)) ∧
    (8 < bits → bits ≤ 16 →
      read_sample bits ⟨pre ++ b0 :: b1 :: post, pre.length⟩ =
        .ok (.bitDepth16
              (if b1 * 2 ^ 8 + b0 < 2 ^ 15 then (b1 * 2 ^ 8 + b0 : Int)
               else (b1 * 2 ^ 8 + b0 : Int) - 2 ^ 16),
             ⟨pre ++ b0 :: b1 :: post, pre.length + 2⟩)) ∧
    (16 < bits →
      read_sample bits ⟨pre ++ b0 :: b1 :: post, pre.length⟩ =
        .error .unsupportedBitDepth) := by
  have hdrop : (pre ++ b0 :: b1 :: post).drop pre.length = b0 :: b1 :: post :=
    List.drop_left pre _
  refine ⟨fun h8 => ?_, fun h8 h16 => ?_, fun h16 => ?_⟩
  · unfold read_sample
    rw [if_pos h8, read_eq_ok (by simp only [List.length_append, List.length_cons]; omega)]
    simp [hdrop]
  · unfold read_sample
    rw [if_neg (by omega), if_pos h16,
      read_eq_ok (by simp only [List.length_append, List.length_cons]; omega)]
    simp only [hdrop]
    simp [to_i16, to_u16]
  · unfold read_sample
    rw [if_neg (by omega), if_neg (by omega)]

/-- Claim C7 witness: all three branches at concrete inputs: bit depth 8
decodes byte 7 to unsigned 7; bit depth 16 decodes the file pair `[52, 18]`
to `18 * 256 + 52 = 4660`; bit depth 17 fails with `UnsupportedBitDepth`. -/
theorem c7_sample_decode_witness :
    read_sample 8 ⟨[7, 9], 0⟩ = .ok (.bitDepth8 7, ⟨[7, 9], 1⟩) ∧
    read_sample 16 ⟨[52, 18], 0⟩ = .ok (.bitDepth16 4660, ⟨[52, 18], 2⟩) ∧
    read_sample 17 ⟨[52, 18], 0⟩ = .error .unsupportedBitDepth :=
  ⟨(c7_sample_decode 8 7 9 [] []).1 (by decide),
   (c7_sample_decode 16 52 18 [] []).2.1 (by decide) (by decide),
   (c7_sample_decode 17 52 18 [] []).2.2 (by decide)⟩

/-- When `try_accept_chunk` reports a match, the four bytes just before the
resulting cursor are the requested tag: the cursor sits at `q + 4` for some
position `q` where the tag was read. -/
theorem try_accept_chunk_loop_true_shape {fuel : Nat} {cid : List Nat} {a b : Nat}
    {s s₁ : ByteStream}
    (h : try_accept_chunk_loop fuel cid a b s = .ok (true, s₁)) :
    ∃ q, s₁ = ⟨s.bytes, q + 4⟩ ∧ (s.bytes.drop q).take 4 = cid ∧
      q + 4 ≤ s.bytes.length := by
  induction fuel generalizing b s with
  | zero =>
    rw [try_accept_chunk_loop_zero] at h
    split at h
    · cases h
    · simp at h
  | succ n ih =>
    rw [try_accept_chunk_loop_succ] at h
    split at h
    · split at h
      · cases h
      · next bs s' heq =>
        rcases read_ok heq with ⟨hbs, hs', hb⟩
        split at h
        · next hcid =>
          cases h
          refine ⟨s.offset, hs', ?_, hb⟩
          rw [← hbs]
          exact hcid.symm
        · split at h
          · cases h
          · next sz s₂ heq₂ =>
            rcases read_chunk_size_ok heq₂ with ⟨hs₂, _⟩
            split at h
            · cases h
            · next bs₃ s₃ heq₃ =>
              rcases read_ok heq₃ with ⟨_, hs₃, _⟩
              rcases hs' with rfl
              rcases hs₂ with rfl
              rcases hs₃ with rfl
              obtain ⟨q, hq1, hq2, hq3⟩ := ih h
              exact ⟨q, by simpa using hq1, by simpa using hq2, by simpa using hq3⟩
    · simp at h

/-- Wrapper version of `try_accept_chunk_loop_true_shape`. -/
theorem try_accept_chunk_true_shape {fuel : Nat} {cid : List Nat} {pend : Nat}
    {s s₁ : ByteStream}
    (h : try_accept_chunk fuel cid pend s = .ok (true, s₁)) :
    ∃ q, s₁ = ⟨s.bytes, q + 4⟩ ∧ (s.bytes.drop q).take 4 = cid ∧
      q + 4 ≤ s.bytes.length := by
  unfold try_accept_chunk at h
  split at h
  · cases h
  · split at h
    · cases h
    · split at h
      · cases h
      · next s' heq =>
        cases h
        exact try_accept_chunk_loop_true_shape heq
      · next s' heq =>
        split at h
        · cases h
        · simp at h

/-- The declared size returned by `read_chunk_size` is the little-endian
`u32` of the four bytes at the read position. -/
theorem read_chunk_size_ok_value {s s' : ByteStream} {sz : Nat}
    (h : read_chunk_size s = .ok (sz, s')) :
    sz = to_u32 ((s.bytes.drop s.offset).take 4).reverse := by
  unfold read_chunk_size at h
  split at h
  · cases h
  · next bs s₁ heq =>
    rcases read_ok heq with ⟨hbs, _, _⟩
    cases h
    rw [hbs]

/-- Exit states of the list-scan loop that report success: either the loop
exited at once with `found` already set, or the last list it examined was a
`LIST` at some position `q` whose sub-type matched (exit at `q + 12`), or a
`LIST` whose sub-type did not match and whose padded payload was skipped
(exit at `q + 12 +` the padded declared size). -/
theorem try_accept_list_loop_exit_shape {fuel : Nat} {T : List Nat} {pend : Nat}
    {found : Bool} {s s_exit : ByteStream}
    (h : try_accept_list_loop fuel T pend found s = .ok (true, s_exit)) :
    s_exit.bytes = s.bytes ∧
    ((found = true ∧ s_exit.offset = s.offset) ∨
     (∃ q, (s.bytes.drop q).take 4 = LIST_TAG ∧ (s.bytes.drop (q + 8)).take 4 = T ∧
        q + 12 ≤ s.bytes.length ∧ s_exit.offset = q + 12) ∨
     (∃ q, (s.bytes.drop q).take 4 = LIST_TAG ∧ (s.bytes.drop (q + 8)).take 4 ≠ T ∧
        s_exit.offset =
          q + 12 + padEven (to_u32 ((s.bytes.drop (q + 4)).take 4).reverse))) := by
  induction fuel generalizing found s with
  | zero =>
    rw [try_accept_list_loop_zero] at h
    cases h
  | succ n ih =>
    rw [try_accept_list_loop_succ] at h
    split at h
    · cases h
    · next s' heq =>
      have hs' := try_accept_chunk_ok_false heq
      cases h
      rcases hs' with rfl
      exact ⟨rfl, Or.inl ⟨rfl, rfl⟩⟩
    · next s' heq =>
      obtain ⟨q, rfl, hq2, hq3⟩ := try_accept_chunk_true_shape heq
      split at h
      · cases h
      · next sz s₂ heq₂ =>
        have hsz := read_chunk_size_ok_value heq₂
        rcases read_chunk_size_ok heq₂ with ⟨hs₂, hb₂⟩
        rcases hs₂ with rfl
        split at h
        · cases h
        · next lt s₃ heq₃ =>
          rcases read_ok heq₃ with ⟨hlt, hs₃, hb₃⟩
          rcases hs₃ with rfl
          split at h
          · next hltT =>
            obtain ⟨hbytes, hcase⟩ := ih h
            refine ⟨by simpa using hbytes, ?_⟩
            have hTq : (s.bytes.drop (q + 8)).take 4 = T := by
              rw [← hltT, hlt]
            rcases hcase with ⟨_, hoff⟩ | ⟨q', h1, h2, h3, h4⟩ | ⟨q', h1, h2, h3⟩
            · refine Or.inr (Or.inl ⟨q, hq2, hTq, by simp at hb₃; omega, ?_⟩)
              rw [hoff]
            · exact Or.inr (Or.inl ⟨q', by simpa using h1, by simpa using h2,
                by simpa using h3, h4⟩)
            · exact Or.inr (Or.inr ⟨q', by simpa using h1, by simpa using h2,
                by simpa using h3⟩)
          · next hltT =>
            split at h
            · cases h
            · next s₄ heq₄ =>
              rcases read_ok heq₄ with ⟨_, hs₄, hb₄⟩
              rcases hs₄ with rfl
              obtain ⟨hbytes, hcase⟩ := ih h
              refine ⟨by simpa using hbytes, ?_⟩
              have hTq : (s.bytes.drop (q + 8)).take 4 ≠ T := by
                intro hc
                apply hltT
                rw [hlt]
                simpa using hc
              have hszq : sz = to_u32 ((s.bytes.drop (q + 4)).take 4).reverse := by
                rw [hsz]
              rcases hcase with ⟨hfound, hoff⟩ | ⟨q', h1, h2, h3, h4⟩ | ⟨q', h1, h2, h3⟩
              · refine Or.inr (Or.inr ⟨q, hq2, hTq, ?_⟩)
                rw [hoff, ← hszq]
              · exact Or.inr (Or.inl ⟨q', by simpa using h1, by simpa using h2,
                  by simpa using h3, h4⟩)
              · exact Or.inr (Or.inr ⟨q', by simpa using h1, by simpa using h2,
                  by simpa using h3⟩)

/-- Claim C3 (amended): for every buffer, entry offset, bound, fuel and
requested sub-type, whenever the list matcher succeeds the cursor is rewound
8 bytes back from the scan's exit position, which lands on the start of a
size field, never on the `LIST` tag itself: when the last list the scan
examined was the matching one, the resulting offset is `q + 4` for the
position `q` of that `LIST` tag (sub-type `T` at `q + 8`), i.e. the start of
the matched list's size field, and the next 4 bytes the caller reads are
that size field; when the last examined list did not match (it was skipped),
the cursor lands its padded payload size past `q + 4` instead. -/
theorem c3_rewind_to_size_field (fuel : Nat) (T : List Nat) (pend : Nat)
    (s s' : ByteStream)
    (h : try_accept_list_type fuel T pend s = .ok (true, s')) :
    s'.bytes = s.bytes ∧
    ((∃ q, (s.bytes.drop q).take 4 = LIST_TAG ∧ (s.bytes.drop (q + 8)).take 4 = T ∧
        s'.offset = q + 4 ∧ s'.peek 4 = .ok ((s.bytes.drop (q + 4)).take 4)) ∨
     (∃ q, (s.bytes.drop q).take 4 = LIST_TAG ∧ (s.bytes.drop (q + 8)).take 4 ≠ T ∧
        s'.offset = q + 4 + padEven (to_u32 ((s.bytes.drop (q + 4)).take 4).reverse))) := by
  unfold try_accept_list_type at h
  split at h
  · cases h
  · split at h
    · cases h
    · split at h
      · cases h
      · next found s_exit heq =>
        split at h
        · next hfound =>
          split at h
          · cases h
          · next s'' heq₂ =>
            cases h
            subst hfound
            rcases seek_ok heq₂ with ⟨rfl, hlt⟩
            obtain ⟨hbytes, hcase⟩ := try_accept_list_loop_exit_shape heq
            rcases hcase with ⟨hc, _⟩ | ⟨q, h1, h2, h3, h4⟩ | ⟨q, h1, h2, h3⟩
            · cases hc
            · refine ⟨by simp [hbytes], Or.inl ⟨q, h1, h2, ?_, ?_⟩⟩
              · simp
                omega
              · unfold ByteStream.peek
                rw [if_pos (by simp [hbytes]; omega)]
                simp [hbytes]
                rw [show s_exit.offset - (4 + 4) = q + 4 by omega]
            · refine ⟨by simp [hbytes], Or.inr ⟨q, h1, h2, ?_⟩⟩
              simp
              omega
        · split at h
          · cases h
          · simp at h

/-- Claim C3 witness: the general rewind theorem applied to the concrete
`c3_buffer` scan (matching `LIST`/`wavl` followed by a `junk` chunk): the
matcher succeeds at offset 4 and the characterization holds there. -/
theorem c3_rewind_to_size_field_witness :
    (⟨c3_buffer, 4⟩ : ByteStream).bytes = (⟨c3_buffer, 0⟩ : ByteStream).bytes ∧
    ((∃ q, ((⟨c3_buffer, 0⟩ : ByteStream).bytes.drop q).take 4 = LIST_TAG ∧
        ((⟨c3_buffer, 0⟩ : ByteStream).bytes.drop (q + 8)).take 4 = WAVL_TAG ∧
        (⟨c3_buffer, 4⟩ : ByteStream).offset = q + 4 ∧
        (⟨c3_buffer, 4⟩ : ByteStream).peek 4 =
          .ok (((⟨c3_buffer, 0⟩ : ByteStream).bytes.drop (q + 4)).take 4)) ∨
     (∃ q, ((⟨c3_buffer, 0⟩ : ByteStream).bytes.drop q).take 4 = LIST_TAG ∧
        ((⟨c3_buffer, 0⟩ : ByteStream).bytes.drop (q + 8)).take 4 ≠ WAVL_TAG ∧
        (⟨c3_buffer, 4⟩ : ByteStream).offset =
          q + 4 + padEven (to_u32
            (((⟨c3_buffer, 0⟩ : ByteStream).bytes.drop (q + 4)).take 4).reverse))) :=
  c3_rewind_to_size_field 7 WAVL_TAG 20 ⟨c3_buffer, 0⟩ ⟨c3_buffer, 4⟩ (by decide)

/-- Claim C1 (amended): every `try_accept` scan is bounded by
`region_end ≤ buffer.length`; the `wavl` LIST content loop strictly advances
the cursor on every iteration whose next 4-byte tag is `data` or `slnt`, but
on any other tag the body makes no progress (see the counterexample), so
termination of the top-level parse is guaranteed only when every `wavl`-loop
iteration meets a `data` or `slnt` tag. -/
theorem c1_wavl_progress (fuel : Nat) (wf wf' : WaveFile) (s s' : ByteStream)
    (htag : (s.bytes.drop s.offset).take 4 = DATA_TAG ∨
      (s.bytes.drop s.offset).take 4 = SLNT_TAG)
    (h4 : s.offset + 4 ≤ s.bytes.length)
    (hok : wavl_body fuel wf s = .ok (wf', s')) :
    s.offset < s'.offset := by
  unfold wavl_body at hok
  have h4d : s.offset + DATA_TAG.length ≤ s.bytes.length := by
    simpa [DATA_TAG] using h4
  rcases htag with htag | htag
  · have htag' : (s.bytes.drop s.offset).take DATA_TAG.length = DATA_TAG := by
      simpa [DATA_TAG] using htag
    simp only [try_read_match h4d htag'] at hok
    rcases read_wave_data_chunk_advances hok with ⟨_, hle⟩
    simp at hle
    omega
  · have hne : (s.bytes.drop s.offset).take DATA_TAG.length ≠ DATA_TAG := by
      rw [show DATA_TAG.length = 4 from rfl, htag]
      decide
    simp only [try_read_mismatch h4d hne] at hok
    have h4s : s.offset + SLNT_TAG.length ≤ s.bytes.length := by
      simpa [SLNT_TAG] using h4
    have htag' : (s.bytes.drop s.offset).take SLNT_TAG.length = SLNT_TAG := by
      simpa [SLNT_TAG] using htag
    simp only [try_read_match h4s htag'] at hok
    split at hok
    · cases hok
    · next s₂ heq =>
      rcases skip_unimplemented_chunk_ok heq with ⟨_, hle⟩
      cases hok
      simp at hle
      omega

/-- Claim C1 witness: at a `wavl`-loop state whose next tag is `data`
(declared size 0), one loop body strictly advances the cursor from offset 0
to offset 8. -/
theorem c1_wavl_progress_witness :
    (⟨[100, 97, 116, 97, 0, 0, 0, 0], 0⟩ : ByteStream).offset <
      (⟨[100, 97, 116, 97, 0, 0, 0, 0], 8⟩ : ByteStream).offset :=
  c1_wavl_progress 10 ⟨[[]], .WAVE_FORMAT_PCM, 0, 0, 0, 8⟩
    ⟨[[]], .WAVE_FORMAT_PCM, 0, 0, 0, 8⟩
    ⟨[100, 97, 116, 97, 0, 0, 0, 0], 0⟩ ⟨[100, 97, 116, 97, 0, 0, 0, 0], 8⟩
    (Or.inl (by decide)) (by decide) (by decide)

/-! ## The channel-length invariant (Claim C5) -/

/-- All per-channel sample sequences have equal length. -/
def EqLen (chans : List (List Sample)) : Prop :=
  ∀ c1 ∈ chans, ∀ c2 ∈ chans, c1.length = c2.length

theorem read_wave_data_loop_eqLen {fuel bits e : Nat} {ch ch' : List (List Sample)}
    {s s' : ByteStream} (hE : EqLen ch)
    (h : read_wave_data_loop fuel bits e ch s = .ok (ch', s')) : EqLen ch' := by
  induction fuel generalizing ch s with
  | zero =>
    rw [read_wave_data_loop_zero] at h
    split at h
    · cases h
    · cases h
      exact hE
  | succ n ih =>
    rw [read_wave_data_loop_succ] at h
    split at h
    · split at h
      · next hlen1 =>
        split at h
        · cases h
        · next x s₁ heq =>
          obtain ⟨c, rfl⟩ := List.length_eq_one.mp hlen1
          refine ih ?_ h
          intro c1 hc1 c2 hc2
          simp at hc1 hc2
          rw [hc1, hc2]
      · split at h
        · next hlen2 =>
          split at h
          · cases h
          · next x s₁ heq =>
            split at h
            · cases h
            · next y s₂ heq₂ =>
              obtain ⟨a, b, rfl⟩ := List.length_eq_two.mp hlen2
              have hab : a.length = b.length := hE a (by simp) b (by simp)
              refine ih ?_ h
              intro c1 hc1 c2 hc2
              simp [List.set] at hc1 hc2
              rcases hc1 with rfl | rfl <;> rcases hc2 with rfl | rfl <;> simp [hab]
        · cases h
    · cases h
      exact hE

theorem read_wave_data_chunk_eqLen {fuel : Nat} {wf wf' : WaveFile} {s s' : ByteStream}
    (hE : EqLen wf.channels) (h : read_wave_data_chunk fuel wf s = .ok (wf', s')) :
    EqLen wf'.channels := by
  unfold read_wave_data_chunk at h
  split at h
  · cases h
  · next sz s₁ heq =>
    split at h
    · cases h
    · next ch s₂ heq₂ =>
      have hE' := read_wave_data_loop_eqLen hE heq₂
      split at h
      · split at h
        · cases h
        · next bs s₃ heq₃ =>
          cases h
          exact hE'
      · cases h
        exact hE'

theorem wavl_body_eqLen {fuel : Nat} {wf wf' : WaveFile} {s s' : ByteStream}
    (hE : EqLen wf.channels) (h : wavl_body fuel wf s = .ok (wf', s')) :
    EqLen wf'.channels := by
  unfold wavl_body at h
  split at h
  · cases h
  · exact read_wave_data_chunk_eqLen hE h
  · split at h
    · cases h
    · split at h
      · cases h
      · cases h
        exact hE
    · cases h
      exact hE

theorem wavl_loop_eqLen {fuel e : Nat} {wf wf' : WaveFile} {s s' : ByteStream}
    (hE : EqLen wf.channels) (h : wavl_loop fuel e wf s = .ok (wf', s')) :
    EqLen wf'.channels := by
  induction fuel generalizing wf s with
  | zero =>
    rw [wavl_loop_zero] at h
    split at h
    · cases h
    · cases h
      exact hE
  | succ n ih =>
    rw [wavl_loop_succ] at h
    split at h
    · split at h
      · cases h
      · next wf₁ s₁ heq => exact ih (wavl_body_eqLen hE heq) h
    · cases h
      exact hE

theorem read_fmt_chunk_eqLen {wf wf' : WaveFile} {s s' : ByteStream}
    (h : read_fmt_chunk wf s = .ok (wf', s')) : EqLen wf'.channels := by
  unfold read_fmt_chunk at h
  split at h
  · cases h
  · split at h
    · cases h
    · split at h
      · cases h
      · split at h
        · cases h
        · split at h
          · cases h
          · split at h
            · cases h
            · split at h
              · cases h
              · split at h
                · cases h
                  intro c1 h1 c2 h2
                  rw [List.eq_of_mem_replicate h1, List.eq_of_mem_replicate h2]
                · cases h

theorem read_data_region_eqLen {fuel pend : Nat} {wf wf' : WaveFile} {s s' : ByteStream}
    (hE : EqLen wf.channels) (h : read_data_region fuel pend wf s = .ok (wf', s')) :
    EqLen wf'.channels := by
  unfold read_data_region at h
  split at h
  · cases h
  · split at h
    · cases h
    · split at h
      · cases h
      · exact wavl_loop_eqLen hE h
  · split at h
    · cases h
    · exact read_wave_data_chunk_eqLen hE h
    · cases h

theorem read_wave_riff_form_eqLen {fuel : Nat} {wf wf' : WaveFile} {s s' : ByteStream}
    (h : read_wave_riff_form fuel wf s = .ok (wf', s')) : EqLen wf'.channels := by
  unfold read_wave_riff_form at h
  split at h
  · cases h
  · cases h
  · split at h
    · cases h
    · next wf₁ s₁ heq =>
      have hE₁ := read_fmt_chunk_eqLen heq
      split at h
      · cases h
      · split at h
        · cases h
        · split at h
          · cases h
          · split at h
            · cases h
            · exact read_data_region_eqLen hE₁ h

theorem parseFuel_eqLen {fuel : Nat} {bytes : List Nat} {wf : WaveFile}
    (h : parseFuel fuel bytes = .ok wf) : EqLen wf.channels := by
  unfold parseFuel at h
  split at h
  · cases h
  · cases h
  · split at h
    · cases h
    · split at h
      · cases h
      · cases h
      · split at h
        · cases h
        · next wf₁ s₁ heq =>
          cases h
          exact read_wave_riff_form_eqLen heq

/-- The number of bytes one sample occupies: `read_sample` reads 1 byte for
bit depths up to 8 and 2 bytes for depths up to 16 (higher depths fail). -/
def sample_width (bit_depth : Nat) : Nat :=
  if bit_depth ≤ 8 then 1 else 2

/-- A successful `read_sample` advances the cursor by exactly
`sample_width bit_depth` bytes. -/
theorem read_sample_width {bits : Nat} {s s' : ByteStream} {x : Sample}
    (h : read_sample bits s = .ok (x, s')) :
    s' = ⟨s.bytes, s.offset + sample_width bits⟩ := by
  unfold read_sample at h
  split at h
  · next h8 =>
    split at h
    · cases h
    · next bs s₁ heq =>
      rcases read_ok heq with ⟨_, hs₁, _⟩
      cases h
      rw [hs₁]
      simp [sample_width, h8]
  · next h8 =>
    split at h
    · next h16 =>
      split at h
      · cases h
      · next bs s₁ heq =>
        rcases read_ok heq with ⟨_, hs₁, _⟩
        cases h
        rw [hs₁]
        simp [sample_width, h8]
    · cases h

/-- Frame accounting for the data-chunk decode loop: a successful run
decodes some number of interleaved frames; the channel count is unchanged,
every channel gains exactly `frames` samples, and the loop consumes exactly
`frames * channels * sample_width` payload bytes. -/
theorem read_wave_data_loop_frames {fuel bits e : Nat} {ch ch' : List (List Sample)}
    {s s' : ByteStream}
    (h : read_wave_data_loop fuel bits e ch s = .ok (ch', s')) :
    ∃ frames, ch'.length = ch.length ∧
      (∀ i, i < ch.length → (ch'.getD i []).length = (ch.getD i []).length + frames) ∧
      s'.offset = s.offset + frames * (ch.length * sample_width bits) := by
  induction fuel generalizing ch s with
  | zero =>
    rw [read_wave_data_loop_zero] at h
    split at h
    · cases h
    · cases h
      exact ⟨0, rfl, fun i _ => by simp, by simp⟩
  | succ n ih =>
    rw [read_wave_data_loop_succ] at h
    split at h
    · split at h
      · next hlen1 =>
        split at h
        · cases h
        · next x s₁ heq =>
          obtain ⟨c, rfl⟩ := List.length_eq_one.mp hlen1
          rcases read_sample_width heq with rfl
          obtain ⟨f, hL, hAll, hOff⟩ := ih h
          refine ⟨f + 1, by simpa using hL, ?_, ?_⟩
          · intro i hi
            have hi0 : i = 0 := by omega
            subst hi0
            have h0 := hAll 0 (by simp)
            simp at h0
            simp [h0]
            omega
          · simp at hOff
            rw [hOff, Nat.succ_mul]
            simp
            omega
      · split at h
        · next hlen2 =>
          split at h
          · cases h
          · next x s₁ heq =>
            split at h
            · cases h
            · next y s₂ heq₂ =>
              obtain ⟨a, b, rfl⟩ := List.length_eq_two.mp hlen2
              rcases read_sample_width heq with rfl
              rcases read_sample_width heq₂ with rfl
              obtain ⟨f, hL, hAll, hOff⟩ := ih h
              refine ⟨f + 1, by simpa using hL, ?_, ?_⟩
              · intro i hi
                have h0 := hAll 0 (by simp)
                have h1 := hAll 1 (by simp)
                simp at h0 h1
                have hi2 : i < 2 := by simpa using hi
                interval_cases i
                · simp [h0]
                  omega
                · simp [h1]
                  omega
              · rw [hOff]
                show s.offset + sample_width bits + sample_width bits +
                    f * (2 * sample_width bits) =
                  s.offset + (f + 1) * (2 * sample_width bits)
                ring
        · cases h
    · cases h
      exact ⟨0, rfl, fun i _ => by simp, by simp⟩

/-- Claim C5: whenever the top-level parse succeeds, all per-channel sample
sequences in the result have equal length; and, connecting that common
length to the decoded data payload, every successful run of the data-chunk
decode loop keeps the channel count fixed, appends the same number of
samples (the common growth of channel 0) to every channel — one per channel
per interleaved frame — and consumes exactly that number of frames times
`channels * sample_width` bytes of payload, so the common length counts the
interleaved sample-frames of the decoded data payload. -/
theorem c5_channel_invariant (fuel : Nat) (bytes : List Nat) (wf : WaveFile)
    (fuelD bits e : Nat) (ch ch' : List (List Sample)) (s s' : ByteStream) :
    (parseFuel fuel bytes = .ok wf →
      ∀ c1 ∈ wf.channels, ∀ c2 ∈ wf.channels, c1.length = c2.length) ∧
    (read_wave_data_loop fuelD bits e ch s = .ok (ch', s') →
      ch'.length = ch.length ∧
      (∀ i, i < ch.length →
        (ch'.getD i []).length =
          (ch.getD i []).length + ((ch'.getD 0 []).length - (ch.getD 0 []).length)) ∧
      s'.offset = s.offset +
        ((ch'.getD 0 []).length - (ch.getD 0 []).length) *
          (ch.length * sample_width bits)) := by
  constructor
  · intro h
    exact parseFuel_eqLen h
  · intro h
    obtain ⟨f, hL, hAll, hOff⟩ := read_wave_data_loop_frames h
    rcases Nat.eq_zero_or_pos ch.length with h0 | hpos
    · have hnil : ch = [] := List.length_eq_zero.mp h0
      subst hnil
      have hnil' : ch' = [] := List.length_eq_zero.mp (by simpa using hL)
      subst hnil'
      refine ⟨rfl, fun i hi => by omega, ?_⟩
      simpa using hOff
    · have h0eq := hAll 0 hpos
      have hfr : (ch'.getD 0 []).length - (ch.getD 0 []).length = f := by omega
      rw [hfr]
      exact ⟨hL, hAll, hOff⟩

/-- A minimal valid buffer: `RIFF`, size, `WAVE`, the 1-channel 8-bit `fmt `
chunk, and a `data` chunk of declared size 0 (44 bytes). -/
def c5_minimal : List Nat :=
  [82, 73, 70, 70, 36, 0, 0, 0, 87, 65, 86, 69,
   102, 109, 116, 32, 16, 0, 0, 0, 1, 0, 1, 0, 64, 31, 0, 0, 64, 31, 0, 0, 1, 0, 8, 0,
   100, 97, 116, 97, 0, 0, 0, 0]

/-- Claim C5 witness: both halves at concrete inputs — the equal-length
invariant at the parse of `c5_minimal`, and the frame accounting at a
2-channel 8-bit decode of the 4-byte payload `[1, 2, 3, 4]` (2 frames:
channel 1 gains 2 samples and the loop consumes 2 * (2 * 1) = 4 bytes). -/
theorem c5_channel_invariant_witness :
    ([] : List Sample).length = ([] : List Sample).length ∧
    (([[Sample.bitDepth8 1, Sample.bitDepth8 3],
       [Sample.bitDepth8 2, Sample.bitDepth8 4]] : List (List Sample)).getD 1 []).length =
      (([[], []] : List (List Sample)).getD 1 []).length +
        ((([[Sample.bitDepth8 1, Sample.bitDepth8 3],
            [Sample.bitDepth8 2, Sample.bitDepth8 4]] :
              List (List Sample)).getD 0 []).length -
          (([[], []] : List (List Sample)).getD 0 []).length) ∧
    (⟨[1, 2, 3, 4], 4⟩ : ByteStream).offset =
      (⟨[1, 2, 3, 4], 0⟩ : ByteStream).offset +
        ((([[Sample.bitDepth8 1, Sample.bitDepth8 3],
            [Sample.bitDepth8 2, Sample.bitDepth8 4]] :
              List (List Sample)).getD 0 []).length -
          (([[], []] : List (List Sample)).getD 0 []).length) *
          (([[], []] : List (List Sample)).length * sample_width 8) := by
  have e0 : try_read RIFF_TAG ⟨c5_minimal, 0⟩ = .ok (true, ⟨c5_minimal, 4⟩) := by decide
  have e1 : read_chunk_size ⟨c5_minimal, 4⟩ = .ok (36, ⟨c5_minimal, 8⟩) := by decide
  have e2 : try_read WAVE_TAG ⟨c5_minimal, 8⟩ = .ok (true, ⟨c5_minimal, 12⟩) := by decide
  have hl : c5_minimal.length = 44 := by decide
  have ea : try_accept_chunk 60 FMT_TAG 44 ⟨c5_minimal, 12⟩ =
      .ok (true, ⟨c5_minimal, 16⟩) := by decide
  have eb : read_fmt_chunk WaveFile.default0 ⟨c5_minimal, 16⟩ =
      .ok (⟨[[]], .WAVE_FORMAT_PCM, 8000, 8000, 1, 8⟩, ⟨c5_minimal, 36⟩) := by decide
  have ec : read_optional_chunk 60 FACT_TAG 44 ⟨c5_minimal, 36⟩ =
      .ok ⟨c5_minimal, 36⟩ := by decide
  have ed : read_optional_chunk 60 CUE_TAG 44 ⟨c5_minimal, 36⟩ =
      .ok ⟨c5_minimal, 36⟩ := by decide
  have ee : read_optional_chunk 60 PLST_TAG 44 ⟨c5_minimal, 36⟩ =
      .ok ⟨c5_minimal, 36⟩ := by decide
  have ef : read_adtl_lists 60 44 ⟨c5_minimal, 36⟩ = .ok ⟨c5_minimal, 36⟩ := by decide
  have eg : read_data_region 60 44 ⟨[[]], .WAVE_FORMAT_PCM, 8000, 8000, 1, 8⟩
        ⟨c5_minimal, 36⟩ =
      .ok (⟨[[]], .WAVE_FORMAT_PCM, 8000, 8000, 1, 8⟩, ⟨c5_minimal, 44⟩) := by decide
  have hparse : parseFuel 60 c5_minimal =
      .ok ⟨[[]], .WAVE_FORMAT_PCM, 8000, 8000, 1, 8⟩ := by
    unfold parseFuel
    simp only [e0, e1, e2]
    unfold read_wave_riff_form
    simp only [hl, ea, eb, ec, ed, ee, ef, eg]
  obtain ⟨p1, p2⟩ := c5_channel_invariant 60 c5_minimal
    ⟨[[]], .WAVE_FORMAT_PCM, 8000, 8000, 1, 8⟩ 10 8 4 [[], []]
    [[Sample.bitDepth8 1, Sample.bitDepth8 3], [Sample.bitDepth8 2, Sample.bitDepth8 4]]
    ⟨[1, 2, 3, 4], 0⟩ ⟨[1, 2, 3, 4], 4⟩
  obtain ⟨hL, hAll, hOff⟩ := p2 (by decide)
  exact ⟨p1 hparse [] (by decide) [] (by decide), hAll 1 (by decide), hOff⟩

end Wave
